import Mathlib

/-!
Verification development for the TOPSIS implementation in `Q1/102217164.py`.

The program has two parts:

* `validate_input(file_path, weights, impacts)` — structural checks on the
  loaded CSV, the weight list and the impact list, raising a distinct error
  for each failing check, in a fixed order.
* `topsis(input_file, weights, impacts, output_file)` — the numeric pipeline:
  L2-normalise each criterion column, multiply by weights, take per-column
  max/min as the positive/negative ideal solutions (direction set by the
  impact symbol), compute per-row Euclidean separations, score each row as
  `sin / (sip + sin)`, and build the rank column as
  `scores.argsort()[::-1] + 1`, finally appending the two columns
  `TOPSIS Score` and `Rank` to the original table.

Real ("float") arithmetic is embedded as arithmetic over `ℝ`; `np.sqrt` is
`Real.sqrt`.  The criteria matrix of a table with `n+1` data rows and `k`
criterion columns is a function `Fin (n+1) → Fin k → ℝ` (row index first,
as in the numpy array `criteria`).  Impacts stay `String`s, as in the code,
which compares each impact against the literal `'+'`.
-/

namespace Topsis

/-- Model of `np.argsort` on a list of keys: the list of positions `0, …, n-1`
sorted so that the corresponding keys are ascending.  numpy's sort is
modelled as a stable sort (for pairwise-distinct keys — the only situation
any claim's concrete instance exercises — every comparison sort agrees). -/
def argsort {α : Type} [LinearOrder α] [Inhabited α] (l : List α) : List ℕ :=
  (List.range l.length).insertionSort (fun i j => l.getD i default ≤ l.getD j default)

/-- Per-column Euclidean norm of the criteria matrix:
`np.sqrt((criteria ** 2).sum(axis=0))` at column `j`. -/
noncomputable def colNorm {n k : ℕ} (x : Fin n → Fin k → ℝ) (j : Fin k) : ℝ :=
  Real.sqrt (∑ i, x i j ^ 2)

/-- Step 1 of `topsis`: `norm_matrix = criteria / np.sqrt((criteria ** 2).sum(axis=0))`. -/
noncomputable def norm_matrix {n k : ℕ} (x : Fin n → Fin k → ℝ) : Fin n → Fin k → ℝ :=
  fun i j => x i j / colNorm x j

/-- Step 2 of `topsis`: `weighted_matrix = norm_matrix * weights`. -/
noncomputable def weighted_matrix {n k : ℕ} (x : Fin n → Fin k → ℝ) (w : Fin k → ℝ) :
    Fin n → Fin k → ℝ :=
  fun i j => norm_matrix x i j * w j

/-- Step 3 of `topsis`, positive ideal solution:
`pis = [max(weighted_matrix[:, i]) if impacts[i] == '+' else min(...) for i in ...]`. -/
noncomputable def pis {n k : ℕ} (x : Fin (n + 1) → Fin k → ℝ) (w : Fin k → ℝ)
    (impacts : Fin k → String) (j : Fin k) : ℝ :=
  if impacts j = "+" then
    Finset.univ.sup' Finset.univ_nonempty (fun i => weighted_matrix x w i j)
  else
    Finset.univ.inf' Finset.univ_nonempty (fun i => weighted_matrix x w i j)

/-- Step 3 of `topsis`, negative ideal solution:
`nis = [min(weighted_matrix[:, i]) if impacts[i] == '+' else max(...) for i in ...]`. -/
noncomputable def nis {n k : ℕ} (x : Fin (n + 1) → Fin k → ℝ) (w : Fin k → ℝ)
    (impacts : Fin k → String) (j : Fin k) : ℝ :=
  if impacts j = "+" then
    Finset.univ.inf' Finset.univ_nonempty (fun i => weighted_matrix x w i j)
  else
    Finset.univ.sup' Finset.univ_nonempty (fun i => weighted_matrix x w i j)

/-- Step 4 of `topsis`: `sip = np.sqrt(((weighted_matrix - pis) ** 2).sum(axis=1))`,
the Euclidean separation of row `i` from the positive ideal solution. -/
noncomputable def sip {n k : ℕ} (x : Fin (n + 1) → Fin k → ℝ) (w : Fin k → ℝ)
    (impacts : Fin k → String) (i : Fin (n + 1)) : ℝ :=
  Real.sqrt (∑ j, (weighted_matrix x w i j - pis x w impacts j) ^ 2)

/-- Step 4 of `topsis`: `sin = np.sqrt(((weighted_matrix - nis) ** 2).sum(axis=1))`,
the Euclidean separation of row `i` from the negative ideal solution. -/
noncomputable def sin {n k : ℕ} (x : Fin (n + 1) → Fin k → ℝ) (w : Fin k → ℝ)
    (impacts : Fin k → String) (i : Fin (n + 1)) : ℝ :=
  Real.sqrt (∑ j, (weighted_matrix x w i j - nis x w impacts j) ^ 2)

/-- Step 5 of `topsis`: `scores = sin / (sip + sin)`. -/
noncomputable def scores {n k : ℕ} (x : Fin (n + 1) → Fin k → ℝ) (w : Fin k → ℝ)
    (impacts : Fin k → String) (i : Fin (n + 1)) : ℝ :=
  sin x w impacts i / (sip x w impacts i + sin x w impacts i)

/-- The scores as a list, row order preserved (the numpy array `scores`). -/
noncomputable def scoresList {n k : ℕ} (x : Fin (n + 1) → Fin k → ℝ) (w : Fin k → ℝ)
    (impacts : Fin k → String) : List ℝ :=
  List.ofFn (scores x w impacts)

/-- Step 6 of `topsis`: `ranks = scores.argsort()[::-1] + 1`. -/
noncomputable def ranks {n k : ℕ} (x : Fin (n + 1) → Fin k → ℝ) (w : Fin k → ℝ)
    (impacts : Fin k → String) : List ℕ :=
  ((argsort (scoresList x w impacts)).reverse).map (· + 1)

/-- The value the `Rank` column holds at row `i`:
`data['Rank'] = ranks` assigns positionally, so row `i` receives `ranks[i]`. -/
noncomputable def rankAt {n k : ℕ} (x : Fin (n + 1) → Fin k → ℝ) (w : Fin k → ℝ)
    (impacts : Fin k → String) (i : Fin (n + 1)) : ℕ :=
  (ranks x w impacts).getD i 0

/-! ## Output table

`topsis` ends with `data['TOPSIS Score'] = scores`, `data['Rank'] = ranks`,
`data.to_csv(output_file, index=False)`: the two new columns are appended
after the existing ones, rows staying in their original order.  A data frame
is modelled as a header plus a list of rows of heterogeneous fields. -/

/-- One cell of the output data frame: the identifier column holds strings,
criterion and score columns hold reals, the rank column holds naturals. -/
inductive Field where
  | str (s : String)
  | real (v : ℝ)
  | nat (m : ℕ)

/-- A pandas data frame, as far as the program observes it: a list of column
names and a list of rows. -/
structure DF where
  header : List String
  rows : List (List Field)

/-- Column assignment `df[cname] = col`: append a fresh column named `cname` on the right,
pairing the `i`-th row with the `i`-th entry of `col`. -/
def DF.addColumn (df : DF) (cname : String) (col : List Field) : DF :=
  ⟨df.header ++ [cname], (df.rows.zip col).map fun p => p.1 ++ [p.2]⟩

/-- The rows of the input table as loaded by `pd.read_csv`: row `i` is the
identifier `names i` followed by the criterion values `x i 0, …, x i (k-1)`. -/
noncomputable def inputRows {n k : ℕ} (names : Fin (n + 1) → String)
    (x : Fin (n + 1) → Fin k → ℝ) : List (List Field) :=
  List.ofFn (fun i => Field.str (names i) :: List.ofFn (fun j => Field.real (x i j)))

/-- The data frame written by `topsis`: the input table with the columns
`TOPSIS Score` and `Rank` appended. -/
noncomputable def topsisRun {n k : ℕ} (hdr : List String) (names : Fin (n + 1) → String)
    (x : Fin (n + 1) → Fin k → ℝ) (w : Fin k → ℝ) (impacts : Fin k → String) : DF :=
  (DF.mk hdr (inputRows names x)
      |>.addColumn "TOPSIS Score" (List.ofFn fun i => Field.real (scores x w impacts i))
      |>.addColumn "Rank" ((ranks x w impacts).map Field.nat))

/-! ## Input validation

`validate_input` inspects the loaded CSV only through its column count and
each non-first column's dtype.  The loaded table is modelled column-wise as a
list of columns of raw cells; a column's dtype is numeric exactly when every
cell parsed as a number (`np.issubdtype(data[column].dtype, np.number)`). -/

/-- One raw cell of the CSV: either a numeric value or unparsed text. -/
inductive Cell where
  | num (q : ℚ)
  | txt (s : String)

/-- Whether a cell is numeric. -/
def Cell.isNum : Cell → Bool
  | .num _ => true
  | .txt _ => false

/-- Whether pandas infers a numeric dtype for a column: every cell is numeric. -/
def colIsNumeric (c : List Cell) : Bool := c.all Cell.isNum

/-- The five validation failures of `validate_input`, in the order the code
raises them. -/
inductive VError where
  | missingFile
  | insufficientColumns
  | nonNumericCriterion
  | dimensionMismatch
  | invalidImpact
deriving DecidableEq

/-- The checks of `validate_input(file_path, weights, impacts)`, in source
order.  `fileExists` stands for `os.path.isfile(file_path)`; `cols` is the
loaded table, one entry per column (so `cols.length = data.shape[1]`). -/
def validate_input (fileExists : Bool) (cols : List (List Cell))
    (weights : List ℚ) (impacts : List String) : Except VError Unit :=
  if ¬ fileExists then .error .missingFile
  else if cols.length < 3 then .error .insufficientColumns
  else if ¬ ((cols.drop 1).all colIsNumeric) then .error .nonNumericCriterion
  else if weights.length ≠ impacts.length ∨ weights.length ≠ cols.length - 1 then
    .error .dimensionMismatch
  else if ¬ (impacts.all fun s => s == "+" || s == "-") then .error .invalidImpact
  else .ok ()

/-! ## General lemmas about the pipeline -/

/-- A per-column maximum: if `r`'s entry dominates the column, the `sup'` is
`r`'s entry. -/
theorem sup'_univ_eq {n : ℕ} {f : Fin (n + 1) → ℝ} {r : Fin (n + 1)}
    (h : ∀ i, f i ≤ f r) :
    Finset.univ.sup' Finset.univ_nonempty f = f r :=
  le_antisymm (Finset.sup'_le _ _ fun i _ => h i) (Finset.le_sup' _ (Finset.mem_univ r))

/-- A per-column minimum: if `r`'s entry is below the column, the `inf'` is
`r`'s entry. -/
theorem inf'_univ_eq {n : ℕ} {f : Fin (n + 1) → ℝ} {r : Fin (n + 1)}
    (h : ∀ i, f r ≤ f i) :
    Finset.univ.inf' Finset.univ_nonempty f = f r :=
  le_antisymm (Finset.inf'_le _ (Finset.mem_univ r)) (Finset.le_inf' _ _ fun i _ => h i)

/-- The list `argsort l` permutes the positions `0, …, n-1`. -/
theorem argsort_perm {α : Type} [LinearOrder α] [Inhabited α] (l : List α) :
    (argsort l).Perm (List.range l.length) :=
  List.perm_insertionSort _ _

/-- Function `argsort` returns one position per element. -/
theorem argsort_length {α : Type} [LinearOrder α] [Inhabited α] (l : List α) :
    (argsort l).length = l.length := by
  simpa using (argsort_perm l).length_eq

/-- There is one score per data row. -/
theorem scoresList_length {n k : ℕ} (x : Fin (n + 1) → Fin k → ℝ) (w : Fin k → ℝ)
    (impacts : Fin k → String) : (scoresList x w impacts).length = n + 1 := by
  simp [scoresList]

/-- The rank column is a permutation of `1, …, n+1`, ties or not: it is the
reversed argsort permutation shifted by one. -/
theorem ranks_perm {n k : ℕ} (x : Fin (n + 1) → Fin k → ℝ) (w : Fin k → ℝ)
    (impacts : Fin k → String) :
    (ranks x w impacts).Perm ((List.range (n + 1)).map (· + 1)) := by
  unfold ranks
  refine List.Perm.map _ ?_
  have h1 : (argsort (scoresList x w impacts)).reverse.Perm
      (argsort (scoresList x w impacts)) := List.reverse_perm _
  have h2 := argsort_perm (scoresList x w impacts)
  rw [scoresList_length] at h2
  exact h1.trans h2

/-- There is one rank per data row. -/
theorem ranks_length {n k : ℕ} (x : Fin (n + 1) → Fin k → ℝ) (w : Fin k → ℝ)
    (impacts : Fin k → String) : (ranks x w impacts).length = n + 1 := by
  simpa using (ranks_perm x w impacts).length_eq

/-- Separations are square roots, hence nonnegative. -/
theorem sip_nonneg {n k : ℕ} (x : Fin (n + 1) → Fin k → ℝ) (w : Fin k → ℝ)
    (impacts : Fin k → String) (i : Fin (n + 1)) : 0 ≤ sip x w impacts i :=
  Real.sqrt_nonneg _

/-- Separations are square roots, hence nonnegative. -/
theorem sin_nonneg {n k : ℕ} (x : Fin (n + 1) → Fin k → ℝ) (w : Fin k → ℝ)
    (impacts : Fin k → String) (i : Fin (n + 1)) : 0 ≤ sin x w impacts i :=
  Real.sqrt_nonneg _

/-- The scores only depend on the input through the weighted matrix. -/
theorem scores_congr {n k : ℕ} {x x' : Fin (n + 1) → Fin k → ℝ} {w : Fin k → ℝ}
    (impacts : Fin k → String)
    (h : weighted_matrix x' w = weighted_matrix x w) :
    scores x' w impacts = scores x w impacts := by
  funext i
  unfold scores sip sin pis nis
  rw [h]

/-! ## A concrete run: criteria `[[2,4],[9,7],[6,4]]`, weights `[33,36]`,
impacts `[+,+]`

Both column norms are integers (`‖(2,9,6)‖ = 11`, `‖(4,7,4)‖ = 9`), so the
weighted matrix is exactly `[[6,16],[27,28],[18,16]]`; the scores come out as
`[0, 1, 4/9]` and the rank column as `[2, 3, 1]`. -/

noncomputable def xC : Fin 3 → Fin 2 → ℝ := ![![2, 4], ![9, 7], ![6, 4]]

noncomputable def wC : Fin 2 → ℝ := ![33, 36]

def impC : Fin 2 → String := !["+", "+"]

theorem colNorm_xC_zero : colNorm xC 0 = 11 := by
  have h : ∑ i, xC i 0 ^ 2 = (121 : ℝ) := by
    simp [xC, Fin.sum_univ_three]
    norm_num
  rw [colNorm, h, show (121 : ℝ) = 11 ^ 2 by norm_num, Real.sqrt_sq (by norm_num)]

theorem colNorm_xC_one : colNorm xC 1 = 9 := by
  have h : ∑ i, xC i 1 ^ 2 = (81 : ℝ) := by
    simp [xC, Fin.sum_univ_three]
    norm_num
  rw [colNorm, h, show (81 : ℝ) = 9 ^ 2 by norm_num, Real.sqrt_sq (by norm_num)]

theorem wm_xC : weighted_matrix xC wC = ![![6, 16], ![27, 28], ![18, 16]] := by
  funext i j
  simp only [weighted_matrix, norm_matrix]
  fin_cases i <;> fin_cases j <;>
    simp only [Fin.zero_eta, Fin.mk_one, colNorm_xC_zero, colNorm_xC_one] <;>
    norm_num [xC, wC]

theorem pis_xC : pis xC wC impC = ![27, 28] := by
  funext j
  fin_cases j <;> simp only [Fin.zero_eta, Fin.mk_one]
  · rw [pis, if_pos (show impC 0 = "+" from rfl)]
    have h : ∀ i : Fin 3, weighted_matrix xC wC i 0 ≤ weighted_matrix xC wC 1 0 := by
      intro i; rw [wm_xC]; fin_cases i <;> norm_num
    rw [sup'_univ_eq h, wm_xC]; norm_num
  · rw [pis, if_pos (show impC 1 = "+" from rfl)]
    have h : ∀ i : Fin 3, weighted_matrix xC wC i 1 ≤ weighted_matrix xC wC 1 1 := by
      intro i; rw [wm_xC]; fin_cases i <;> norm_num
    rw [sup'_univ_eq h, wm_xC]; norm_num

theorem nis_xC : nis xC wC impC = ![6, 16] := by
  funext j
  fin_cases j <;> simp only [Fin.zero_eta, Fin.mk_one]
  · rw [nis, if_pos (show impC 0 = "+" from rfl)]
    have h : ∀ i : Fin 3, weighted_matrix xC wC 0 0 ≤ weighted_matrix xC wC i 0 := by
      intro i; rw [wm_xC]; fin_cases i <;> norm_num
    rw [inf'_univ_eq h, wm_xC]; norm_num
  · rw [nis, if_pos (show impC 1 = "+" from rfl)]
    have h : ∀ i : Fin 3, weighted_matrix xC wC 0 1 ≤ weighted_matrix xC wC i 1 := by
      intro i; rw [wm_xC]; fin_cases i <;> norm_num
    rw [inf'_univ_eq h, wm_xC]; norm_num

theorem sip_xC : sip xC wC impC = ![Real.sqrt 585, 0, 15] := by
  funext i
  rw [sip, wm_xC, pis_xC]
  fin_cases i
  · norm_num [Fin.sum_univ_two]
  · norm_num [Fin.sum_univ_two]
  · have h15 : Real.sqrt 225 = 15 := by
      rw [show (225 : ℝ) = 15 ^ 2 by norm_num, Real.sqrt_sq (by norm_num)]
    norm_num [Fin.sum_univ_two, h15]

theorem sin_xC : sin xC wC impC = ![0, Real.sqrt 585, 12] := by
  funext i
  rw [sin, wm_xC, nis_xC]
  fin_cases i
  · norm_num [Fin.sum_univ_two]
  · norm_num [Fin.sum_univ_two]
  · have h12 : Real.sqrt 144 = 12 := by
      rw [show (144 : ℝ) = 12 ^ 2 by norm_num, Real.sqrt_sq (by norm_num)]
    norm_num [Fin.sum_univ_two, h12]

theorem sqrt585_pos : 0 < Real.sqrt 585 := Real.sqrt_pos.mpr (by norm_num)

theorem scores_xC : scores xC wC impC = ![0, 1, 4 / 9] := by
  funext i
  rw [scores, sip_xC, sin_xC]
  fin_cases i
  · norm_num
  · norm_num [div_self sqrt585_pos.ne']
  · norm_num

theorem scores_xC_injective : Function.Injective (scores xC wC impC) := by
  rw [scores_xC]
  intro a b hab
  fin_cases a <;> fin_cases b <;> first | rfl | (norm_num at hab)

theorem scoresList_xC : scoresList xC wC impC = [0, 1, 4 / 9] := by
  rw [scoresList, scores_xC]
  simp [List.ofFn_succ]

theorem argsort_xC : argsort ([0, 1, 4 / 9] : List ℝ) = [0, 2, 1] := by
  unfold argsort
  norm_num [List.insertionSort, List.orderedInsert, List.range_succ]

theorem ranks_xC : ranks xC wC impC = [2, 3, 1] := by
  rw [ranks, scoresList_xC, argsort_xC]
  decide

theorem rankAt_xC_one : rankAt xC wC impC 1 = 3 := by
  rw [rankAt, ranks_xC]
  rfl

/-! ## The spec's concrete scenario: criteria `[[1,2],[3,4]]`, weights `[1,1]`,
impacts `[+,+]` -/

noncomputable def x3 : Fin 2 → Fin 2 → ℝ := ![![1, 2], ![3, 4]]

noncomputable def w3 : Fin 2 → ℝ := ![1, 1]

def imp3 : Fin 2 → String := !["+", "+"]

theorem weighted_matrix_apply {n k : ℕ} (x : Fin n → Fin k → ℝ) (w : Fin k → ℝ)
    (i : Fin n) (j : Fin k) :
    weighted_matrix x w i j = x i j / colNorm x j * w j := rfl

theorem colNorm_x3_pos (j : Fin 2) : 0 < colNorm x3 j := by
  rw [colNorm]
  apply Real.sqrt_pos.mpr
  fin_cases j <;> norm_num [x3, Fin.sum_univ_two]

theorem wm_x3_lt (j : Fin 2) : weighted_matrix x3 w3 0 j < weighted_matrix x3 w3 1 j := by
  have hc := colNorm_x3_pos j
  rw [weighted_matrix_apply, weighted_matrix_apply]
  have hw : w3 j = 1 := by fin_cases j <;> rfl
  rw [hw, mul_one, mul_one]
  apply (div_lt_div_iff_of_pos_right hc).mpr
  fin_cases j <;> norm_num [x3]

theorem nis_x3 : nis x3 w3 imp3 = fun j => weighted_matrix x3 w3 0 j := by
  funext j
  rw [nis, if_pos (show imp3 j = "+" by fin_cases j <;> rfl)]
  apply inf'_univ_eq
  intro i
  fin_cases i
  · exact le_rfl
  · exact (wm_x3_lt j).le

theorem pis_x3 : pis x3 w3 imp3 = fun j => weighted_matrix x3 w3 1 j := by
  funext j
  rw [pis, if_pos (show imp3 j = "+" by fin_cases j <;> rfl)]
  apply sup'_univ_eq
  intro i
  fin_cases i
  · exact (wm_x3_lt j).le
  · exact le_rfl

theorem sin_x3_zero : sin x3 w3 imp3 0 = 0 := by
  rw [sin]
  simp [nis_x3]

theorem sip_x3_one : sip x3 w3 imp3 1 = 0 := by
  rw [sip]
  simp [pis_x3]

theorem sin_x3_one_pos : 0 < sin x3 w3 imp3 1 := by
  rw [sin]
  apply Real.sqrt_pos.mpr
  rw [Fin.sum_univ_two]
  apply add_pos_of_pos_of_nonneg
  · rw [nis_x3]
    exact pow_pos (sub_pos.mpr (wm_x3_lt 0)) 2
  · exact sq_nonneg _

theorem scores_x3_zero : scores x3 w3 imp3 0 = 0 := by
  rw [scores, sin_x3_zero]
  simp

theorem scores_x3_one : scores x3 w3 imp3 1 = 1 := by
  rw [scores, sip_x3_one, zero_add]
  exact div_self sin_x3_one_pos.ne'

theorem scoresList_x3 : scoresList x3 w3 imp3 = [0, 1] := by
  have h : List.ofFn (scores x3 w3 imp3) =
      [scores x3 w3 imp3 0, scores x3 w3 imp3 1] := by
    simp [List.ofFn_succ]
  rw [scoresList, h, scores_x3_zero, scores_x3_one]

theorem argsort_x3 : argsort ([0, 1] : List ℝ) = [0, 1] := by
  unfold argsort
  norm_num [List.insertionSort, List.orderedInsert, List.range_succ]

theorem ranks_x3 : ranks x3 w3 imp3 = [2, 1] := by
  rw [ranks, scoresList_x3, argsort_x3]
  decide

theorem rankAt_x3_one : rankAt x3 w3 imp3 1 = 1 := by
  rw [rankAt, ranks_x3]
  rfl

/-! ## Scale invariance of the normalisation step -/

/-- Multiplying column `j0` by `c ≥ 0` multiplies its Euclidean norm by `c`
and leaves the other column norms unchanged. -/
theorem colNorm_scale {n k : ℕ} (x : Fin n → Fin k → ℝ) (j0 : Fin k) (c : ℝ)
    (hc : 0 ≤ c) (j : Fin k) :
    colNorm (fun i j' => if j' = j0 then c * x i j' else x i j') j =
      (if j = j0 then c else 1) * colNorm x j := by
  by_cases h : j = j0
  · rw [colNorm, colNorm, if_pos h]
    have hsum : ∑ i, (if j = j0 then c * x i j else x i j) ^ 2
        = c ^ 2 * ∑ i, x i j ^ 2 := by
      rw [Finset.mul_sum]
      refine Finset.sum_congr rfl fun i _ => ?_
      rw [if_pos h, mul_pow]
    rw [hsum, Real.sqrt_mul (sq_nonneg c), Real.sqrt_sq hc]
  · rw [colNorm, colNorm, if_neg h]
    have hsum : ∑ i, (if j = j0 then c * x i j else x i j) ^ 2 = ∑ i, x i j ^ 2 := by
      refine Finset.sum_congr rfl fun i _ => ?_
      rw [if_neg h]
    rw [hsum, one_mul]

/-- The normalised matrix is unchanged by scaling a column by `c > 0`:
the column norm scales by the same factor and cancels. -/
theorem norm_matrix_scale {n k : ℕ} (x : Fin n → Fin k → ℝ) (j0 : Fin k) (c : ℝ)
    (hc : 0 < c) :
    norm_matrix (fun i j => if j = j0 then c * x i j else x i j) = norm_matrix x := by
  funext i j
  simp only [norm_matrix]
  rw [colNorm_scale x j0 c hc.le j]
  by_cases h : j = j0
  · rw [if_pos h, if_pos h]
    exact mul_div_mul_left _ _ hc.ne'
  · rw [if_neg h, if_neg h, one_mul]

/-- Hence the weighted matrix is unchanged as well. -/
theorem weighted_matrix_scale {n k : ℕ} (x : Fin n → Fin k → ℝ) (w : Fin k → ℝ)
    (j0 : Fin k) (c : ℝ) (hc : 0 < c) :
    weighted_matrix (fun i j => if j = j0 then c * x i j else x i j) w
      = weighted_matrix x w := by
  funext i j
  simp only [weighted_matrix]
  rw [norm_matrix_scale x j0 c hc]

/-! ## Shape of the output table -/

/-- Zipping two `ofFn` lists of the same length pairs them pointwise. -/
theorem ofFn_zip {α β : Type} {n : ℕ} (f : Fin n → α) (g : Fin n → β) :
    (List.ofFn f).zip (List.ofFn g) = List.ofFn (fun i => (f i, g i)) := by
  apply List.ext_getElem
  · simp
  · intro i h1 h2
    simp [List.getElem_zip]

/-- The rank column, read back positionally: `ranks` is the list of the
per-row `Rank` values. -/
theorem ranks_eq_ofFn {n k : ℕ} (x : Fin (n + 1) → Fin k → ℝ) (w : Fin k → ℝ)
    (impacts : Fin k → String) :
    ranks x w impacts = List.ofFn (fun i : Fin (n + 1) => rankAt x w impacts i) := by
  apply List.ext_getElem
  · simp [ranks_length]
  · intro i h1 h2
    rw [List.getElem_ofFn, rankAt]
    exact (List.getD_eq_getElem _ _ h1).symm

/-! ## Claims -/

/-- C1: the claim says the `Rank` value reported at each row equals that
row's rank under descending score (1 plus the number of strictly higher
scores).  The code instead stores `scores.argsort()[::-1] + 1`, the reversed
sorting permutation.  On criteria `[[2,4],[9,7],[6,4]]` with weights
`[33,36]` and impacts `[+,+]` the scores are `[0, 1, 4/9]`: row 1 has the
strictly highest score, so its rank should be 1, yet its `Rank` cell holds 3. -/
theorem C1_rank_cell_is_not_descending_rank :
    scores xC wC impC 0 < scores xC wC impC 1 ∧
    scores xC wC impC 2 < scores xC wC impC 1 ∧
    rankAt xC wC impC 1 = 3 := by
  refine ⟨?_, ?_, rankAt_xC_one⟩ <;> rw [scores_xC] <;> norm_num

/-- C2: the claim says that with all-Benefit impacts, a row attaining the
per-column maximum of the weighted matrix in every column receives Rank 1.
On criteria `[[2,4],[9,7],[6,4]]`, weights `[33,36]`, impacts `[+,+]`, the
weighted matrix is `[[6,16],[27,28],[18,16]]`: row 1 attains both column
maxima, yet its `Rank` cell holds 3. -/
theorem C2_dominant_row_misses_rank_one :
    impC 0 = "+" ∧ impC 1 = "+" ∧
    weighted_matrix xC wC 0 0 ≤ weighted_matrix xC wC 1 0 ∧
    weighted_matrix xC wC 2 0 ≤ weighted_matrix xC wC 1 0 ∧
    weighted_matrix xC wC 0 1 ≤ weighted_matrix xC wC 1 1 ∧
    weighted_matrix xC wC 2 1 ≤ weighted_matrix xC wC 1 1 ∧
    rankAt xC wC impC 1 = 3 := by
  refine ⟨rfl, rfl, ?_, ?_, ?_, ?_, rankAt_xC_one⟩ <;> rw [wm_xC] <;> norm_num

/-- C3: on the spec's concrete scenario — criteria `[[1,2],[3,4]]`, weights
`[1,1]`, impacts `[+,+]` — row 1 (the dominating row) scores strictly higher
than row 0 and its `Rank` cell holds 1. -/
theorem C3_concrete_scenario :
    scores x3 w3 imp3 0 < scores x3 w3 imp3 1 ∧ rankAt x3 w3 imp3 1 = 1 := by
  rw [scores_x3_zero, scores_x3_one]
  exact ⟨one_pos, rankAt_x3_one⟩

/-- C4: for every input with `n+1` rows whose scores are pairwise distinct,
the engine produces one score per row, and the `Rank` column is exactly the
set `{1, …, n+1}` — no gaps, no duplicates. -/
theorem C4_dense_ranking {n k : ℕ} (x : Fin (n + 1) → Fin k → ℝ) (w : Fin k → ℝ)
    (impacts : Fin k → String) (_hinj : Function.Injective (scores x w impacts)) :
    (scoresList x w impacts).length = n + 1 ∧
    (ranks x w impacts).toFinset = Finset.image (· + 1) (Finset.range (n + 1)) ∧
    (ranks x w impacts).Nodup := by
  have hperm := ranks_perm x w impacts
  refine ⟨scoresList_length x w impacts, ?_, ?_⟩
  · ext a
    rw [List.mem_toFinset, hperm.mem_iff]
    simp
  · refine hperm.nodup_iff.mpr ?_
    exact (List.nodup_range _).map fun a b => by omega

/-- Witness for C4 at the concrete input `xC`, `wC`, `impC`, whose scores
`[0, 1, 4/9]` are pairwise distinct. -/
theorem C4_dense_ranking_witness :
    Function.Injective (scores xC wC impC) ∧
    ((scoresList xC wC impC).length = 2 + 1 ∧
      (ranks xC wC impC).toFinset = Finset.image (· + 1) (Finset.range (2 + 1)) ∧
      (ranks xC wC impC).Nodup) :=
  ⟨scores_xC_injective, C4_dense_ranking xC wC impC scores_xC_injective⟩

/-- C5: multiplying one criterion column by a positive constant before the
pipeline runs leaves every final score unchanged — the L2 column
normalisation cancels the scale. -/
theorem C5_scale_invariance {n k : ℕ} (x : Fin (n + 1) → Fin k → ℝ) (w : Fin k → ℝ)
    (impacts : Fin k → String) (j0 : Fin k) (c : ℝ) (hc : 0 < c) :
    scores (fun i j => if j = j0 then c * x i j else x i j) w impacts
      = scores x w impacts :=
  scores_congr impacts (weighted_matrix_scale x w j0 c hc)

/-- Witness for C5: scaling column 0 of the spec's concrete scenario by 2. -/
theorem C5_scale_invariance_witness :
    (0 : ℝ) < 2 ∧
    scores (fun i j => if j = (0 : Fin 2) then 2 * x3 i j else x3 i j) w3 imp3
      = scores x3 w3 imp3 :=
  ⟨by norm_num, C5_scale_invariance x3 w3 imp3 0 2 (by norm_num)⟩

/-- C6: every score is the separation from the negative ideal solution
divided by the sum of the two Euclidean separations, and lies in `[0, 1]`. -/
theorem C6_score_formula_and_range {n k : ℕ} (x : Fin (n + 1) → Fin k → ℝ)
    (w : Fin k → ℝ) (impacts : Fin k → String) (i : Fin (n + 1)) :
    scores x w impacts i =
      Real.sqrt (∑ j, (weighted_matrix x w i j - nis x w impacts j) ^ 2) /
        (Real.sqrt (∑ j, (weighted_matrix x w i j - pis x w impacts j) ^ 2) +
          Real.sqrt (∑ j, (weighted_matrix x w i j - nis x w impacts j) ^ 2)) ∧
    0 ≤ scores x w impacts i ∧ scores x w impacts i ≤ 1 := by
  refine ⟨rfl, ?_, ?_⟩
  · exact div_nonneg (sin_nonneg x w impacts i)
      (add_nonneg (sip_nonneg x w impacts i) (sin_nonneg x w impacts i))
  · exact div_le_one_of_le₀ (le_add_of_nonneg_left (sip_nonneg x w impacts i))
      (add_nonneg (sip_nonneg x w impacts i) (sin_nonneg x w impacts i))

/-- C7: the output table is the input table with exactly the two columns
`TOPSIS Score` and `Rank` appended on the right: original header, identifier
values, criterion values and row order are all preserved, and row `i` gains
exactly its score and its rank. -/
theorem C7_output_appends_two_columns {n k : ℕ} (hdr : List String)
    (names : Fin (n + 1) → String) (x : Fin (n + 1) → Fin k → ℝ) (w : Fin k → ℝ)
    (impacts : Fin k → String) :
    (topsisRun hdr names x w impacts).header = hdr ++ ["TOPSIS Score", "Rank"] ∧
    (topsisRun hdr names x w impacts).rows =
      List.ofFn (fun i =>
        (Field.str (names i) :: List.ofFn (fun j => Field.real (x i j))) ++
          [Field.real (scores x w impacts i), Field.nat (rankAt x w impacts i)]) := by
  constructor
  · simp [topsisRun, DF.addColumn]
  · simp only [topsisRun, DF.addColumn, inputRows]
    rw [ranks_eq_ofFn, List.map_ofFn, ofFn_zip, List.map_ofFn, ofFn_zip, List.map_ofFn]
    refine congrArg List.ofFn (funext fun i => ?_)
    simp [Function.comp, List.append_assoc]

/-- C10: whatever the scores — ties included — the `Rank` column is a
permutation of `{1, …, n+1}`: it is built from an argsort permutation of the
row positions, so gaps and duplicates are impossible. -/
theorem C10_rank_column_is_permutation {n k : ℕ} (x : Fin (n + 1) → Fin k → ℝ)
    (w : Fin k → ℝ) (impacts : Fin k → String) :
    (ranks x w impacts).length = n + 1 ∧
    (ranks x w impacts).Perm ((List.range (n + 1)).map (· + 1)) :=
  ⟨ranks_length x w impacts, ranks_perm x w impacts⟩

/-- C8: once the file exists, the table has at least 3 columns and all
criterion columns are numeric, `validate_input` fails with the dimension
mismatch error exactly when the weight count, the impact count and the
criterion-column count (columns minus 1) are not all equal. -/
theorem C8_dimension_mismatch_iff (cols : List (List Cell)) (weights : List ℚ)
    (impacts : List String) (h3 : 3 ≤ cols.length)
    (hnum : (cols.drop 1).all colIsNumeric = true) :
    validate_input true cols weights impacts = .error .dimensionMismatch ↔
      ¬ (weights.length = impacts.length ∧ impacts.length = cols.length - 1) := by
  rw [validate_input, if_neg (by simp), if_neg (not_lt.mpr h3), if_neg (by simpa using hnum)]
  by_cases hd : weights.length ≠ impacts.length ∨ weights.length ≠ cols.length - 1
  · rw [if_pos hd]
    simp only [eq_self_iff_true, true_iff]
    rintro ⟨h1, h2⟩
    rcases hd with h | h
    · exact h h1
    · exact h (h1.trans h2)
  · rw [if_neg hd]
    push_neg at hd
    constructor
    · intro h
      exfalso
      by_cases hall : (impacts.all fun s => s == "+" || s == "-") = true
      · rw [if_neg (not_not_intro hall)] at h
        exact Except.noConfusion h
      · rw [if_pos hall] at h
        simp at h
    · intro h
      exact absurd ⟨hd.1, hd.1.symm.trans hd.2⟩ h

/-- Witness for C8: an existing 3-column numeric table, 2 weights and 3
impacts — the dimension mismatch error fires. -/
theorem C8_dimension_mismatch_iff_witness :
    3 ≤ ([[Cell.txt "a"], [Cell.num 1], [Cell.num 2]] : List (List Cell)).length ∧
    validate_input true [[Cell.txt "a"], [Cell.num 1], [Cell.num 2]] [1, 2] ["+", "+", "+"]
      = .error .dimensionMismatch :=
  ⟨by decide,
    (C8_dimension_mismatch_iff _ _ _ (by decide) (by decide)).mpr (by decide)⟩

/-- C9: once every earlier check passes (existing file, at least 3 columns,
numeric criteria, matching counts), `validate_input` fails with the invalid
impact error exactly when some impact string differs from both `"+"` and
`"-"` — no other spelling is accepted. -/
theorem C9_invalid_impact_iff (cols : List (List Cell)) (weights : List ℚ)
    (impacts : List String) (h3 : 3 ≤ cols.length)
    (hnum : (cols.drop 1).all colIsNumeric = true)
    (hw : weights.length = impacts.length) (hN : weights.length = cols.length - 1) :
    validate_input true cols weights impacts = .error .invalidImpact ↔
      ∃ s ∈ impacts, s ≠ "+" ∧ s ≠ "-" := by
  rw [validate_input, if_neg (by simp), if_neg (not_lt.mpr h3), if_neg (by simpa using hnum),
    if_neg (by push_neg; exact ⟨hw, hN⟩)]
  by_cases hall : (impacts.all fun s => s == "+" || s == "-") = true
  · rw [if_neg (not_not_intro hall)]
    simp only [List.all_eq_true, Bool.or_eq_true, beq_iff_eq] at hall
    constructor
    · intro h
      exact Except.noConfusion h
    · rintro ⟨s, hs, h1, h2⟩
      rcases hall s hs with h | h
      · exact absurd h h1
      · exact absurd h h2
  · rw [if_pos hall]
    simp only [List.all_eq_true, Bool.or_eq_true, beq_iff_eq] at hall
    push_neg at hall
    simp only [eq_self_iff_true, true_iff]
    exact hall

/-- Witness for C9: impacts `["+", "x"]` with matching counts — the invalid
impact error fires on `"x"`. -/
theorem C9_invalid_impact_iff_witness :
    ([1, 2] : List ℚ).length = (["+", "x"] : List String).length ∧
    validate_input true [[Cell.txt "a"], [Cell.num 1], [Cell.num 2]] [1, 2] ["+", "x"]
      = .error .invalidImpact :=
  ⟨by decide,
    (C9_invalid_impact_iff _ _ _ (by decide) (by decide) (by decide) (by decide)).mpr
      (by decide)⟩

end Topsis
